import Mathlib

/-
Verification development for the EventStore-Client-Go core client module
(src/esdb/client.go). The data model of the append gRPC exchange, the
persistent-subscription feature gating and dispatch, and the stream-metadata
round trip are embedded as executable Lean definitions translated from the
Go source; parts of the repository that are referenced by src/esdb/client.go
but whose source is not available (protobuf accessors, option records,
metadata map conversion) are modelled from the specification and marked as
such in their doc comments.
-/

namespace ESDB

/- ===================== Append response wire model ===================== -/

/-- Modelled from the spec: the current-revision side of the oneof in
AppendResp.Success, carrying either the returned u64 revision or the
NoStream marker. Revisions are u64 values represented as Nat. -/
inductive CurrentRevisionOption where
  | currentRevision (revision : Nat)
  | noStream
deriving DecidableEq

/-- Modelled from the spec: a global position pair; commit and prepare are
u64 values represented as Nat. -/
structure StreamsPosition where
  commitPosition : Nat
  preparePosition : Nat
deriving DecidableEq

/-- Modelled from the spec: the AppendResp.Success message, with the two
optional oneof groups current_revision_option and position_option. -/
structure AppendSuccess where
  currentRevisionOption : Option CurrentRevisionOption
  positionOption : Option StreamsPosition
deriving DecidableEq

/-- Modelled from the spec: protobuf accessor GetCurrentRevision of the
generated AppendResp.Success type; per proto3 oneof accessor semantics it
returns the carried revision when the oneof holds the revision case and the
zero value otherwise. -/
def AppendSuccess.getCurrentRevision (s : AppendSuccess) : Nat :=
  match s.currentRevisionOption with
  | some (CurrentRevisionOption.currentRevision r) => r
  | _ => 0

/-- Expected-revision side of the oneof in AppendResp.WrongExpectedVersion;
modelled from the spec sum type Any, NoStream, StreamExists, Revision(u64). -/
inductive ExpectedOption where
  | any
  | noStream
  | streamExists
  | revision (r : Nat)
deriving DecidableEq

/-- Current-revision side of the oneof in AppendResp.WrongExpectedVersion;
modelled from the spec: either the NoStream marker or a u64 revision. -/
inductive CurrentOption where
  | noStream
  | revision (r : Nat)
deriving DecidableEq

/-- Modelled from the spec: the AppendResp.WrongExpectedVersion message with
its two oneof groups, each possibly unset. -/
structure WrongExpectedVersionResp where
  expectedOption : Option ExpectedOption
  currentOption : Option CurrentOption
deriving DecidableEq

/-- Modelled from the spec: protobuf accessor GetExpectedRevision; returns
the carried revision when the expected oneof holds the revision case and the
zero value otherwise. -/
def WrongExpectedVersionResp.getExpectedRevision (w : WrongExpectedVersionResp) : Nat :=
  match w.expectedOption with
  | some (ExpectedOption.revision r) => r
  | _ => 0

/-- Modelled from the spec: protobuf accessor GetCurrentRevision on the
wrong-expected-version message; zero when the oneof does not hold the
revision case. -/
def WrongExpectedVersionResp.getCurrentRevision (w : WrongExpectedVersionResp) : Nat :=
  match w.currentOption with
  | some (CurrentOption.revision r) => r
  | _ => 0

/-- Modelled from the spec: the result oneof of AppendResp; the none case of
the surrounding Option models a response whose result oneof is unset or
unrecognized. -/
inductive AppendResult where
  | success (s : AppendSuccess)
  | wrongExpectedVersion (w : WrongExpectedVersionResp)
deriving DecidableEq

/-- WriteResult as returned by AppendToStream (u64 fields as Nat). -/
structure WriteResult where
  commitPosition : Nat
  preparePosition : Nat
  nextExpectedVersion : Nat
deriving DecidableEq

/-- Error values surfaced by the embedded client operations. The
wrongExpectedVersion constructor carries the rendered message of the Go
Error value whose code is ErrorCodeWrongExpectedVersion; nilPointerPanic
models a Go runtime panic from dereferencing a nil pointer. -/
inductive ClientError where
  | unsupportedFeature
  | wrongExpectedVersion (message : String)
  | nilPointerPanic
  | parseError
  | unexpectedRecvError
deriving DecidableEq

/-- Reinterpretation of a u64 value as a signed 64-bit integer, the effect
of the Go conversion int(x) for x of type uint64 on a 64-bit platform. -/
def goInt64OfU64 (x : Nat) : Int :=
  if x % 2 ^ 64 < 2 ^ 63 then Int.ofNat (x % 2 ^ 64)
  else Int.ofNat (x % 2 ^ 64) - 2 ^ 64

/-- Decimal rendering produced by the Go expression
strconv.Itoa(int(x)) for x of type uint64, on a 64-bit platform. -/
def goItoaOfU64 (x : Nat) : String :=
  toString (goInt64OfU64 x)

/-- Human-readable core of the wrong-expected-version message, shared by the
code rendering and by the spec-side renderings used in claim statements. -/
def wevPhrase (x y : String) : String :=
  "expecting \x27" ++ x ++ "\x27 but got \x27" ++ y ++ "\x27"

/-- Message built by AppendToStream for a WrongExpectedVersion result,
translated from src/esdb/client.go lines 117-139: each side is matched
through the protobuf case accessors, with the numeric fallback rendered by
strconv.Itoa(int(...)). -/
def wrongExpectedVersionMessage (wrong : WrongExpectedVersionResp) : String :=
  let expected :=
    match wrong.expectedOption with
    | some ExpectedOption.any => "any"
    | some ExpectedOption.noStream => "no_stream"
    | some ExpectedOption.streamExists => "stream_exists"
    | _ => goItoaOfU64 wrong.getExpectedRevision
  let current :=
    match wrong.currentOption with
    | some CurrentOption.noStream => "no_stream"
    | _ => goItoaOfU64 wrong.getCurrentRevision
  "wrong expected version: " ++ wevPhrase expected current

/-- Result decoding of Client.AppendToStream, translated from
src/esdb/client.go lines 90-147. In the success case the Go code first sets
streamRevision (1 for the NoStream marker, the accessor value otherwise) and
then, in the branch where no position option is present, overwrites
streamRevision with the accessor value again (line 108); both assignments
are kept verbatim. The none case mirrors the fall-through after the switch
(lines 143-147). -/
def decodeAppendResp (result : Option AppendResult) : Except ClientError WriteResult :=
  match result with
  | some (AppendResult.success success) =>
    let streamRevision : Nat :=
      match success.currentRevisionOption with
      | some CurrentRevisionOption.noStream => 1
      | _ => success.getCurrentRevision
    (match success.positionOption with
     | some position =>
       Except.ok { commitPosition := position.commitPosition,
                   preparePosition := position.preparePosition,
                   nextExpectedVersion := streamRevision }
     | none =>
       Except.ok { commitPosition := 0,
                   preparePosition := 0,
                   nextExpectedVersion := success.getCurrentRevision })
  | some (AppendResult.wrongExpectedVersion wrong) =>
    Except.error (ClientError.wrongExpectedVersion (wrongExpectedVersionMessage wrong))
  | none =>
    Except.ok { commitPosition := 0, preparePosition := 0, nextExpectedVersion := 1 }

/-- NextExpectedVersion of a decoded append outcome, none when the decoding
produced an error. -/
def nextExpectedVersionOf : Except ClientError WriteResult → Option Nat
  | Except.ok w => some w.nextExpectedVersion
  | Except.error _ => none

/-- Message of a decoded append outcome when it is an error whose code is
WrongExpectedVersion, none otherwise. -/
def wevMessageOf : Except ClientError WriteResult → Option String
  | Except.error (ClientError.wrongExpectedVersion m) => some m
  | _ => none

/- ===================== C1 ===================== -/

/-- Claim C1 counterexample: it is not the case that every Success response
carrying the NoStream current-revision marker decodes to
NextExpectedVersion 1 regardless of the presence of a position option. At
the concrete response with the NoStream marker and no position option, the
position-absent branch overwrites the revision with the accessor value 0,
so the decoded NextExpectedVersion is 0, not 1. -/
theorem c1_counterexample :
    ¬ (∀ s : AppendSuccess,
        s.currentRevisionOption = some CurrentRevisionOption.noStream →
        nextExpectedVersionOf (decodeAppendResp (some (AppendResult.success s))) = some 1) := by
  intro h
  have hc := h { currentRevisionOption := some CurrentRevisionOption.noStream,
                 positionOption := none } rfl
  exact absurd hc (by decide)

/-- Claim C1 amended: for every append response whose result is Success,
whose current-revision option is the NoStream variant, and which carries a
position option, the returned WriteResult has NextExpectedVersion 1 (and
the positions of the response); when the position option is absent the
revision is overwritten with the current-revision accessor value, which is
0 for the NoStream variant. -/
theorem c1_amended (s : AppendSuccess) (p : StreamsPosition)
    (hrev : s.currentRevisionOption = some CurrentRevisionOption.noStream)
    (hpos : s.positionOption = some p) :
    decodeAppendResp (some (AppendResult.success s)) =
      Except.ok { commitPosition := p.commitPosition,
                  preparePosition := p.preparePosition,
                  nextExpectedVersion := 1 } := by
  simp [decodeAppendResp, hrev, hpos]

/-- Witness for c1_amended at a concrete response. -/
theorem c1_amended_witness :
    decodeAppendResp (some (AppendResult.success
      { currentRevisionOption := some CurrentRevisionOption.noStream,
        positionOption := some { commitPosition := 7, preparePosition := 5 } })) =
      Except.ok { commitPosition := 7, preparePosition := 5, nextExpectedVersion := 1 } :=
  c1_amended _ _ rfl rfl

/- ===================== C2 ===================== -/

/-- Claim C2 counterexample: a Success response carrying neither a
current-revision option nor a position option does not decode to
NextExpectedVersion 1; at that concrete response both accessors return the
zero value and the decoded NextExpectedVersion is 0. -/
theorem c2_counterexample :
    ¬ (∀ s : AppendSuccess,
        s.currentRevisionOption = none → s.positionOption = none →
        nextExpectedVersionOf (decodeAppendResp (some (AppendResult.success s))) = some 1) := by
  intro h
  have hc := h { currentRevisionOption := none, positionOption := none } rfl rfl
  exact absurd hc (by decide)

/-- Claim C2 amended: for every append response whose result is Success but
carries neither a current-revision option nor a position option, the
returned WriteResult is a nil-error result with CommitPosition 0,
PreparePosition 0 and NextExpectedVersion 0 (the accessor zero value), not
1. -/
theorem c2_amended (s : AppendSuccess)
    (hrev : s.currentRevisionOption = none) (hpos : s.positionOption = none) :
    decodeAppendResp (some (AppendResult.success s)) =
      Except.ok { commitPosition := 0, preparePosition := 0, nextExpectedVersion := 0 } := by
  simp [decodeAppendResp, hrev, hpos, AppendSuccess.getCurrentRevision]

/-- Witness for c2_amended at the concrete empty success response. -/
theorem c2_amended_witness :
    decodeAppendResp (some (AppendResult.success
      { currentRevisionOption := none, positionOption := none })) =
      Except.ok { commitPosition := 0, preparePosition := 0, nextExpectedVersion := 0 } :=
  c2_amended _ rfl rfl

/- ===================== C4 ===================== -/

/-- Rendering of the expected side demanded by the claim: one of the three
marker strings or the decimal rendering of the u64 revision itself. -/
def specExpectedString : ExpectedOption → String
  | ExpectedOption.any => "any"
  | ExpectedOption.noStream => "no_stream"
  | ExpectedOption.streamExists => "stream_exists"
  | ExpectedOption.revision r => toString r

/-- Rendering of the current side demanded by the claim. -/
def specCurrentString : CurrentOption → String
  | CurrentOption.noStream => "no_stream"
  | CurrentOption.revision r => toString r

/-- Rendering of the expected side actually produced by the code: the
numeric case goes through strconv.Itoa(int(u64)), reinterpreting the
revision as a signed 64-bit integer. -/
def goExpectedString : ExpectedOption → String
  | ExpectedOption.any => "any"
  | ExpectedOption.noStream => "no_stream"
  | ExpectedOption.streamExists => "stream_exists"
  | ExpectedOption.revision r => goItoaOfU64 r

/-- Rendering of the current side actually produced by the code. -/
def goCurrentString : CurrentOption → String
  | CurrentOption.noStream => "no_stream"
  | CurrentOption.revision r => goItoaOfU64 r

/-- Claim C4 counterexample: it is not the case that every
WrongExpectedVersion response decodes to an error whose message reads
(ends with) the phrase built from the u64 decimal renderings of the carried
variants. At the concrete response whose expected side carries revision
2 ^ 64 - 1, the code renders the side through strconv.Itoa(int(...)) and
produces the string for -1 instead of the u64 decimal
18446744073709551615. -/
theorem c4_counterexample :
    ¬ (∀ (w : WrongExpectedVersionResp) (e : ExpectedOption) (c : CurrentOption),
        w.expectedOption = some e → w.currentOption = some c →
        ∃ msg, wevMessageOf (decodeAppendResp (some (AppendResult.wrongExpectedVersion w))) =
            some msg ∧
          (wevPhrase (specExpectedString e) (specCurrentString c)).data.IsSuffix msg.data) := by
  intro h
  obtain ⟨msg, hmsg, hsuf⟩ :=
    h { expectedOption := some (ExpectedOption.revision (2 ^ 64 - 1)),
        currentOption := some (CurrentOption.revision 0) }
      (ExpectedOption.revision (2 ^ 64 - 1)) (CurrentOption.revision 0) rfl rfl
  have hval : wevMessageOf (decodeAppendResp (some (AppendResult.wrongExpectedVersion
      { expectedOption := some (ExpectedOption.revision (2 ^ 64 - 1)),
        currentOption := some (CurrentOption.revision 0) }))) =
      some ("wrong expected version: " ++ wevPhrase "-1" "0") := by decide
  rw [hval] at hmsg
  obtain rfl := Option.some.injEq _ _ ▸ hmsg.symm
  exact absurd hsuf (by decide)

/-- Claim C4 amended: for every append response whose result is
WrongExpectedVersion and which carries a variant on each side, AppendToStream
returns an error with code WrongExpectedVersion whose message ends with
the phrase built from the two sides, where each side is one of the strings
any, no_stream, stream_exists, or the decimal rendering of the revision
reinterpreted as a signed 64-bit integer by strconv.Itoa(int(u64)); that
rendering agrees with the u64 decimal exactly for revisions below 2 ^ 63. -/
theorem c4_amended (w : WrongExpectedVersionResp) (e : ExpectedOption) (c : CurrentOption)
    (he : w.expectedOption = some e) (hc : w.currentOption = some c) :
    ∃ msg, wevMessageOf (decodeAppendResp (some (AppendResult.wrongExpectedVersion w))) =
        some msg ∧
      (wevPhrase (goExpectedString e) (goCurrentString c)).data.IsSuffix msg.data := by
  refine ⟨"wrong expected version: " ++ wevPhrase (goExpectedString e) (goCurrentString c),
    ?_, ?_⟩
  · cases e <;> cases c <;>
      simp [wevMessageOf, decodeAppendResp, wrongExpectedVersionMessage, he, hc,
        goExpectedString, goCurrentString,
        WrongExpectedVersionResp.getExpectedRevision, WrongExpectedVersionResp.getCurrentRevision]
  · rw [String.data_append]
    exact List.suffix_append _ _

/-- Witness for c4_amended at a concrete wrong-expected-version response. -/
theorem c4_amended_witness :
    ∃ msg, wevMessageOf (decodeAppendResp (some (AppendResult.wrongExpectedVersion
        { expectedOption := some (ExpectedOption.revision 3),
          currentOption := some CurrentOption.noStream }))) = some msg ∧
      (wevPhrase (goExpectedString (ExpectedOption.revision 3))
        (goCurrentString CurrentOption.noStream)).data.IsSuffix msg.data :=
  c4_amended _ (ExpectedOption.revision 3) CurrentOption.noStream rfl rfl

/- ===================== C8 ===================== -/

/-- Claim C8: an append response whose result is neither a Success variant
nor a WrongExpectedVersion variant (the result oneof is unset) is decoded by
AppendToStream as a nil error together with a WriteResult whose
CommitPosition is 0, PreparePosition is 0 and NextExpectedVersion is 1. -/
theorem c8_unrecognized_result (result : Option AppendResult)
    (hs : ∀ s, result ≠ some (AppendResult.success s))
    (hw : ∀ w, result ≠ some (AppendResult.wrongExpectedVersion w)) :
    decodeAppendResp result =
      Except.ok { commitPosition := 0, preparePosition := 0, nextExpectedVersion := 1 } := by
  match result with
  | none => rfl
  | some (AppendResult.success s) => exact absurd rfl (hs s)
  | some (AppendResult.wrongExpectedVersion w) => exact absurd rfl (hw w)

/-- Witness for c8_unrecognized_result at the unset result. -/
theorem c8_unrecognized_result_witness :
    decodeAppendResp none =
      Except.ok { commitPosition := 0, preparePosition := 0, nextExpectedVersion := 1 } :=
  c8_unrecognized_result none (fun s h => by cases h) (fun w h => by cases h)

/- ===================== Persistent subscription model ===================== -/

/-- Server features consulted by the client before feature-gated calls.
Only the two features used by src/esdb/client.go are modelled. -/
inductive Feature where
  | persistentSubscriptionToAll
  | persistentSubscriptionManagement
deriving DecidableEq

/-- Connection handle restricted to what src/esdb/client.go consults:
the SupportsFeature predicate over the feature set of the connected
server. -/
structure connectionHandle where
  SupportsFeature : Feature → Bool

/-- Stream position sum type from the spec: Start, End or a u64 revision. -/
inductive StreamPosition where
  | streamStart
  | streamEnd
  | revision (r : Nat)
deriving DecidableEq

/-- Position in the global all stream from the spec: Start, End or a
commit and prepare pair. -/
inductive AllPosition where
  | allStart
  | allEnd
  | position (commit prepare : Nat)
deriving DecidableEq

/-- Consumer strategy of a persistent subscription group, from the spec. -/
inductive ConsumerStrategy where
  | dispatchToSingle
  | roundRobin
  | pinned
  | pinnedByCorrelation
deriving DecidableEq

/-- Modelled from the spec: the persistent subscription settings record
(SubscriptionSettings in the repository, source not under src); the spec
does not fix the default values, so the field defaults here stand for the
values produced by SubscriptionSettingsDefault. -/
structure SubscriptionSettings where
  resolveLinkTos : Bool := false
  extraStatistics : Bool := false
  messageTimeout : Nat := 0
  maxRetryCount : Nat := 0
  liveBufferSize : Nat := 0
  readBatchSize : Nat := 0
  historyBufferSize : Nat := 0
  checkpointAfter : Nat := 0
  checkpointLowerBound : Nat := 0
  checkpointUpperBound : Nat := 0
  maxSubscriberCount : Nat := 0
  consumerStrategy : ConsumerStrategy := ConsumerStrategy.roundRobin
deriving DecidableEq

/-- Modelled from the spec: the value returned by
SubscriptionSettingsDefault, substituted by the create and update
operations when the caller passes no settings. -/
def SubscriptionSettingsDefault : SubscriptionSettings := {}

/-- Modelled from the spec: a subscription filter (prefixes or regex). -/
structure SubscriptionFilter where
  prefixes : List String := []
  regex : String := ""
deriving DecidableEq

/-- Modelled from the spec: filter options assembled for all-stream
subscriptions. -/
structure SubscriptionFilterOptions where
  MaxSearchWindow : Int := 0
  CheckpointInterval : Int := 0
  SubscriptionFilter : Option SubscriptionFilter := none
deriving DecidableEq

/-- Modelled from the spec: options of the stream-scoped persistent
subscription create and update operations. -/
structure PersistentStreamSubscriptionOptions where
  Settings : Option SubscriptionSettings := none
  StartFrom : StreamPosition := StreamPosition.streamEnd

/-- Modelled from the spec: options of the all-stream persistent
subscription create and update operations. -/
structure PersistentAllSubscriptionOptions where
  Settings : Option SubscriptionSettings := none
  StartFrom : AllPosition := AllPosition.allEnd
  Filter : Option SubscriptionFilter := none
  MaxSearchWindow : Int := 0

/-- Modelled from the spec: options of SubscribeToPersistentSubscription. -/
structure SubscribeToPersistentSubscriptionOptions where
  BufferSize : Nat := 10

/-- Modelled from the spec: options of the replay-parked operations. -/
structure ReplayParkedMessagesOptions where
  StopAt : Int := 0

/-- Modelled from the spec: options of the list operations. -/
structure ListPersistentSubscriptionsOptions where
  Deadline : Nat := 0

/-- Modelled from the spec: options of the get-info operations. -/
structure GetPersistentSubscriptionOptions where
  Deadline : Nat := 0

/-- Modelled from the spec: options of the delete operations. -/
structure DeletePersistentSubscriptionOptions where
  Deadline : Nat := 0

/-- Modelled from the spec: options of the restart-subsystem operation. -/
structure RestartPersistentSubscriptionSubsystemOptions where
  Deadline : Nat := 0

/-- Underlying call performed by a persistent-subscription operation once
the feature gates have passed: one constructor per gRPC call and one per
legacy HTTP admin call, carrying the arguments the Go code forwards. -/
inductive PSAction where
  | connectGrpc (streamName groupName : String) (bufferSize : Nat)
  | createStreamGrpc (streamName groupName : String) (startFrom : StreamPosition)
      (settings : SubscriptionSettings)
  | createAllGrpc (groupName : String) (startFrom : AllPosition)
      (settings : SubscriptionSettings) (filterOptions : Option SubscriptionFilterOptions)
  | updateStreamGrpc (streamName groupName : String) (startFrom : StreamPosition)
      (settings : SubscriptionSettings)
  | updateAllGrpc (groupName : String) (startFrom : AllPosition)
      (settings : SubscriptionSettings)
  | deleteStreamGrpc (streamName groupName : String)
  | deleteAllGrpc (groupName : String)
  | replayParkedGrpc (streamName : Option String) (groupName : String)
  | replayParkedHttp (streamName groupName : String)
  | listGrpc (streamName : Option String)
  | listForStreamHttp (streamName : String)
  | listAllHttp
  | getInfoGrpc (streamName : Option String) (groupName : String)
  | getInfoHttp (streamName groupName : String)
  | restartGrpc
  | restartHttp
deriving DecidableEq

/-- Models a Go nil-able pointer dereference: dereferencing nil is a runtime
panic, surfaced here as an error value so that reachability of the panic is
provable. -/
def deref {α : Type} : Option α → Except ClientError α
  | none => Except.error ClientError.nilPointerPanic
  | some a => Except.ok a

/-- Client.SubscribeToPersistentSubscriptionToAll, translated from
src/esdb/client.go lines 447-472: gated on the PersistentSubscriptionToAll
feature, then connects with the empty stream name. -/
def SubscribeToPersistentSubscriptionToAll (handle : connectionHandle) (groupName : String)
    (options : SubscribeToPersistentSubscriptionOptions) : Except ClientError PSAction :=
  if !(handle.SupportsFeature Feature.persistentSubscriptionToAll) then
    Except.error ClientError.unsupportedFeature
  else
    Except.ok (PSAction.connectGrpc "" groupName options.BufferSize)

/-- Client.CreatePersistentSubscription, translated from src/esdb/client.go
lines 479-498: no feature gate; nil settings are replaced by the default
settings before the dereference. -/
def CreatePersistentSubscription (handle : connectionHandle) (streamName groupName : String)
    (options : PersistentStreamSubscriptionOptions) : Except ClientError PSAction :=
  let options :=
    if options.Settings.isNone then
      { options with Settings := some SubscriptionSettingsDefault }
    else options
  match deref options.Settings with
  | Except.error e => Except.error e
  | Except.ok setts =>
    Except.ok (PSAction.createStreamGrpc streamName groupName options.StartFrom setts)

/-- Filter options assembled by Client.CreatePersistentSubscriptionToAll,
translated from src/esdb/client.go lines 519-525. -/
def allFilterOptions (options : PersistentAllSubscriptionOptions) :
    Option SubscriptionFilterOptions :=
  match options.Filter with
  | some f => some { MaxSearchWindow := options.MaxSearchWindow, SubscriptionFilter := some f }
  | none => none

/-- Client.CreatePersistentSubscriptionToAll, translated from
src/esdb/client.go lines 505-543: gated on the PersistentSubscriptionToAll
feature; nil settings are replaced by the default settings before the
dereference. -/
def CreatePersistentSubscriptionToAll (handle : connectionHandle) (groupName : String)
    (options : PersistentAllSubscriptionOptions) : Except ClientError PSAction :=
  if !(handle.SupportsFeature Feature.persistentSubscriptionToAll) then
    Except.error ClientError.unsupportedFeature
  else
    let filterOptions := allFilterOptions options
    let options :=
      if options.Settings.isNone then
        { options with Settings := some SubscriptionSettingsDefault }
      else options
    match deref options.Settings with
    | Except.error e => Except.error e
    | Except.ok setts =>
      Except.ok (PSAction.createAllGrpc groupName options.StartFrom setts filterOptions)

/-- Client.UpdatePersistentSubscription, translated from src/esdb/client.go
lines 546-565: no feature gate; nil settings are replaced by the default
settings before the dereference. -/
def UpdatePersistentSubscription (handle : connectionHandle) (streamName groupName : String)
    (options : PersistentStreamSubscriptionOptions) : Except ClientError PSAction :=
  let options :=
    if options.Settings.isNone then
      { options with Settings := some SubscriptionSettingsDefault }
    else options
  match deref options.Settings with
  | Except.error e => Except.error e
  | Except.ok setts =>
    Except.ok (PSAction.updateStreamGrpc streamName groupName options.StartFrom setts)

/-- Client.UpdatePersistentSubscriptionToAll, translated from
src/esdb/client.go lines 568-586: gated on the PersistentSubscriptionToAll
feature; unlike the other create and update operations there is no nil
check on options.Settings before the dereference at line 585. -/
def UpdatePersistentSubscriptionToAll (handle : connectionHandle) (groupName : String)
    (options : PersistentAllSubscriptionOptions) : Except ClientError PSAction :=
  if !(handle.SupportsFeature Feature.persistentSubscriptionToAll) then
    Except.error ClientError.unsupportedFeature
  else
    match deref options.Settings with
    | Except.error e => Except.error e
    | Except.ok setts =>
      Except.ok (PSAction.updateAllGrpc groupName options.StartFrom setts)

/-- Client.DeletePersistentSubscription, translated from src/esdb/client.go
lines 589-602. -/
def DeletePersistentSubscription (handle : connectionHandle) (streamName groupName : String)
    (options : DeletePersistentSubscriptionOptions) : Except ClientError PSAction :=
  Except.ok (PSAction.deleteStreamGrpc streamName groupName)

/-- Client.DeletePersistentSubscriptionToAll, translated from
src/esdb/client.go lines 605-622: gated on the PersistentSubscriptionToAll
feature. -/
def DeletePersistentSubscriptionToAll (handle : connectionHandle) (groupName : String)
    (options : DeletePersistentSubscriptionOptions) : Except ClientError PSAction :=
  if !(handle.SupportsFeature Feature.persistentSubscriptionToAll) then
    Except.error ClientError.unsupportedFeature
  else
    Except.ok (PSAction.deleteAllGrpc groupName)

/-- Client.replayParkedMessages, translated from src/esdb/client.go lines
634-655: the literal all-stream name is mapped to a nil stream pointer, the
nil case is gated on the PersistentSubscriptionToAll feature, and dispatch
is gRPC when the PersistentSubscriptionManagement feature is present and
legacy HTTP otherwise. -/
def replayParkedMessages (handle : connectionHandle) (streamName groupName : String)
    (options : ReplayParkedMessagesOptions) : Except ClientError PSAction :=
  let finalStreamName : Option String :=
    if streamName ≠ "$all" then some streamName else none
  if finalStreamName.isNone &&
      !(handle.SupportsFeature Feature.persistentSubscriptionToAll) then
    Except.error ClientError.unsupportedFeature
  else if handle.SupportsFeature Feature.persistentSubscriptionManagement then
    Except.ok (PSAction.replayParkedGrpc finalStreamName groupName)
  else
    Except.ok (PSAction.replayParkedHttp streamName groupName)

/-- Client.ReplayParkedMessages, translated from src/esdb/client.go
lines 625-627. -/
def ReplayParkedMessages (handle : connectionHandle) (streamName groupName : String)
    (options : ReplayParkedMessagesOptions) : Except ClientError PSAction :=
  replayParkedMessages handle streamName groupName options

/-- Client.ReplayParkedMessagesToAll, translated from src/esdb/client.go
lines 630-632. -/
def ReplayParkedMessagesToAll (handle : connectionHandle) (groupName : String)
    (options : ReplayParkedMessagesOptions) : Except ClientError PSAction :=
  replayParkedMessages handle "$all" groupName options

/-- Client.listPersistentSubscriptionsInternal, translated from
src/esdb/client.go lines 673-693. -/
def listPersistentSubscriptionsInternal (handle : connectionHandle)
    (streamName : Option String) (options : ListPersistentSubscriptionsOptions) :
    Except ClientError PSAction :=
  if streamName = some "$all" ∧
      handle.SupportsFeature Feature.persistentSubscriptionToAll = false then
    Except.error ClientError.unsupportedFeature
  else if handle.SupportsFeature Feature.persistentSubscriptionManagement then
    Except.ok (PSAction.listGrpc streamName)
  else
    match streamName with
    | some s => Except.ok (PSAction.listForStreamHttp s)
    | none => Except.ok PSAction.listAllHttp

/-- Client.ListAllPersistentSubscriptions, translated from
src/esdb/client.go lines 658-660. -/
def ListAllPersistentSubscriptions (handle : connectionHandle)
    (options : ListPersistentSubscriptionsOptions) : Except ClientError PSAction :=
  listPersistentSubscriptionsInternal handle none options

/-- Client.ListPersistentSubscriptionsForStream, translated from
src/esdb/client.go lines 663-665. -/
def ListPersistentSubscriptionsForStream (handle : connectionHandle) (streamName : String)
    (options : ListPersistentSubscriptionsOptions) : Except ClientError PSAction :=
  listPersistentSubscriptionsInternal handle (some streamName) options

/-- Client.ListPersistentSubscriptionsToAll, translated from
src/esdb/client.go lines 668-671: passes the literal all-stream name. -/
def ListPersistentSubscriptionsToAll (handle : connectionHandle)
    (options : ListPersistentSubscriptionsOptions) : Except ClientError PSAction :=
  listPersistentSubscriptionsInternal handle (some "$all") options

/-- Client.getPersistentSubscriptionInfoInternal, translated from
src/esdb/client.go lines 705-727: the all-stream gate fires only when the
stream-name pointer is non-nil and equal to the literal all-stream name; on
the HTTP path a nil pointer is re-pointed at the literal all-stream name. -/
def getPersistentSubscriptionInfoInternal (handle : connectionHandle)
    (streamName : Option String) (groupName : String)
    (options : GetPersistentSubscriptionOptions) : Except ClientError PSAction :=
  if streamName = some "$all" ∧
      handle.SupportsFeature Feature.persistentSubscriptionToAll = false then
    Except.error ClientError.unsupportedFeature
  else if handle.SupportsFeature Feature.persistentSubscriptionManagement then
    Except.ok (PSAction.getInfoGrpc streamName groupName)
  else
    let s := match streamName with
      | none => "$all"
      | some s => s
    Except.ok (PSAction.getInfoHttp s groupName)

/-- Client.GetPersistentSubscriptionInfo, translated from
src/esdb/client.go lines 696-698. -/
def GetPersistentSubscriptionInfo (handle : connectionHandle) (streamName groupName : String)
    (options : GetPersistentSubscriptionOptions) : Except ClientError PSAction :=
  getPersistentSubscriptionInfoInternal handle (some streamName) groupName options

/-- Client.GetPersistentSubscriptionInfoToAll, translated from
src/esdb/client.go lines 701-703: passes a nil stream-name pointer. -/
def GetPersistentSubscriptionInfoToAll (handle : connectionHandle) (groupName : String)
    (options : GetPersistentSubscriptionOptions) : Except ClientError PSAction :=
  getPersistentSubscriptionInfoInternal handle none groupName options

/-- Client.RestartPersistentSubscriptionSubsystem, translated from
src/esdb/client.go lines 730-742. -/
def RestartPersistentSubscriptionSubsystem (handle : connectionHandle)
    (options : RestartPersistentSubscriptionSubsystemOptions) : Except ClientError PSAction :=
  if handle.SupportsFeature Feature.persistentSubscriptionManagement then
    Except.ok PSAction.restartGrpc
  else
    Except.ok PSAction.restartHttp

/-- Handle of a server advertising no features. -/
def noFeaturesHandle : connectionHandle :=
  { SupportsFeature := fun _ => false }

/-- Handle of a server advertising every modelled feature. -/
def allFeaturesHandle : connectionHandle :=
  { SupportsFeature := fun _ => true }

/-- Handle of a server advertising PersistentSubscriptionManagement but not
PersistentSubscriptionToAll. -/
def mgmtOnlyHandle : connectionHandle :=
  { SupportsFeature := fun f =>
      match f with
      | Feature.persistentSubscriptionManagement => true
      | _ => false }

/- ===================== C3 ===================== -/

/-- Claim C3 evaluated at the failing input: on a handle without the
PersistentSubscriptionToAll feature, six of the seven all-stream
persistent-subscription operations return the UnsupportedFeature error
before performing any call, but GetPersistentSubscriptionInfoToAll passes a
nil stream-name pointer to the internal lookup, so the all-stream gate
never fires and the operation proceeds to the legacy HTTP dispatch for the
all stream instead of returning UnsupportedFeature. -/
theorem c3_featureless_eval :
    SubscribeToPersistentSubscriptionToAll noFeaturesHandle "group" {} =
      Except.error ClientError.unsupportedFeature
    ∧ CreatePersistentSubscriptionToAll noFeaturesHandle "group" {} =
      Except.error ClientError.unsupportedFeature
    ∧ UpdatePersistentSubscriptionToAll noFeaturesHandle "group" {} =
      Except.error ClientError.unsupportedFeature
    ∧ DeletePersistentSubscriptionToAll noFeaturesHandle "group" {} =
      Except.error ClientError.unsupportedFeature
    ∧ ListPersistentSubscriptionsToAll noFeaturesHandle {} =
      Except.error ClientError.unsupportedFeature
    ∧ ReplayParkedMessagesToAll noFeaturesHandle "group" {} =
      Except.error ClientError.unsupportedFeature
    ∧ GetPersistentSubscriptionInfoToAll noFeaturesHandle "group" {} =
      Except.ok (PSAction.getInfoHttp "$all" "group") := by
  refine ⟨rfl, rfl, rfl, rfl, ?_, ?_, ?_⟩ <;>
    simp [ListPersistentSubscriptionsToAll, listPersistentSubscriptionsInternal,
      ReplayParkedMessagesToAll, replayParkedMessages,
      GetPersistentSubscriptionInfoToAll, getPersistentSubscriptionInfoInternal,
      noFeaturesHandle]

/- ===================== C7 ===================== -/

/-- Kind of path taken by a persistent-subscription management operation. -/
inductive DispatchKind where
  | grpc
  | http
  | errored
deriving DecidableEq

/-- Kind of the underlying call of an operation outcome. -/
def dispatchKind : Except ClientError PSAction → DispatchKind
  | Except.error _ => DispatchKind.errored
  | Except.ok a =>
    match a with
    | PSAction.connectGrpc .. => DispatchKind.grpc
    | PSAction.createStreamGrpc .. => DispatchKind.grpc
    | PSAction.createAllGrpc .. => DispatchKind.grpc
    | PSAction.updateStreamGrpc .. => DispatchKind.grpc
    | PSAction.updateAllGrpc .. => DispatchKind.grpc
    | PSAction.deleteStreamGrpc .. => DispatchKind.grpc
    | PSAction.deleteAllGrpc .. => DispatchKind.grpc
    | PSAction.replayParkedGrpc .. => DispatchKind.grpc
    | PSAction.listGrpc .. => DispatchKind.grpc
    | PSAction.getInfoGrpc .. => DispatchKind.grpc
    | PSAction.restartGrpc => DispatchKind.grpc
    | PSAction.replayParkedHttp .. => DispatchKind.http
    | PSAction.listForStreamHttp .. => DispatchKind.http
    | PSAction.listAllHttp => DispatchKind.http
    | PSAction.getInfoHttp .. => DispatchKind.http
    | PSAction.restartHttp => DispatchKind.http

/-- Dispatch kind demanded by the spec for a management operation: gRPC
when the handle supports PersistentSubscriptionManagement, legacy HTTP
otherwise. -/
def managementKind (handle : connectionHandle) : DispatchKind :=
  if handle.SupportsFeature Feature.persistentSubscriptionManagement then
    DispatchKind.grpc
  else
    DispatchKind.http

/-- Claim C7 counterexample: it is not the case that every management
operation is dispatched according to the PersistentSubscriptionManagement
feature alone. On a handle supporting PersistentSubscriptionManagement but
not PersistentSubscriptionToAll, replaying parked messages for the all
stream returns UnsupportedFeature instead of dispatching over gRPC. -/
theorem c7_counterexample :
    ¬ (∀ (h : connectionHandle) (s g : String) (sn : Option String)
        (ro : ReplayParkedMessagesOptions) (lo : ListPersistentSubscriptionsOptions)
        (io : GetPersistentSubscriptionOptions)
        (rso : RestartPersistentSubscriptionSubsystemOptions),
        dispatchKind (replayParkedMessages h s g ro) = managementKind h
        ∧ dispatchKind (listPersistentSubscriptionsInternal h sn lo) = managementKind h
        ∧ dispatchKind (getPersistentSubscriptionInfoInternal h sn g io) = managementKind h
        ∧ dispatchKind (RestartPersistentSubscriptionSubsystem h rso) = managementKind h) := by
  intro h
  have hc := (h mgmtOnlyHandle "$all" "group" none {} {} {} {}).1
  exact absurd hc (by decide)

/-- Claim C7 amended: for every management operation (replay-parked, list,
get-info, restart-subsystem), provided the operation does not first fail
its all-stream feature gate (that is, whenever it targets the all stream
the handle supports PersistentSubscriptionToAll), the operation is
dispatched over gRPC when the handle supports
PersistentSubscriptionManagement and over the legacy HTTP admin path
otherwise; the choice depends only on the feature set of the handle. -/
theorem c7_amended (h : connectionHandle) (s g : String) (sn : Option String)
    (ro : ReplayParkedMessagesOptions) (lo : ListPersistentSubscriptionsOptions)
    (io : GetPersistentSubscriptionOptions)
    (rso : RestartPersistentSubscriptionSubsystemOptions) :
    ((s = "$all" → h.SupportsFeature Feature.persistentSubscriptionToAll = true) →
      dispatchKind (replayParkedMessages h s g ro) = managementKind h)
    ∧ ((sn = some "$all" → h.SupportsFeature Feature.persistentSubscriptionToAll = true) →
      dispatchKind (listPersistentSubscriptionsInternal h sn lo) = managementKind h)
    ∧ ((sn = some "$all" → h.SupportsFeature Feature.persistentSubscriptionToAll = true) →
      dispatchKind (getPersistentSubscriptionInfoInternal h sn g io) = managementKind h)
    ∧ dispatchKind (RestartPersistentSubscriptionSubsystem h rso) = managementKind h := by
  refine ⟨?_, ?_, ?_, ?_⟩
  · intro hgate
    by_cases hs : s = "$all"
    · have hta := hgate hs
      subst hs
      cases hm : h.SupportsFeature Feature.persistentSubscriptionManagement <;>
        simp [replayParkedMessages, hta, hm, dispatchKind, managementKind]
    · cases hm : h.SupportsFeature Feature.persistentSubscriptionManagement <;>
        simp [replayParkedMessages, hs, hm, dispatchKind, managementKind]
  · intro hgate
    by_cases hsn : sn = some "$all"
    · have hta := hgate hsn
      subst hsn
      cases hm : h.SupportsFeature Feature.persistentSubscriptionManagement <;>
        simp [listPersistentSubscriptionsInternal, hta, hm, dispatchKind, managementKind]
    · cases hm : h.SupportsFeature Feature.persistentSubscriptionManagement <;>
        cases sn <;>
          simp_all [listPersistentSubscriptionsInternal, dispatchKind, managementKind]
  · intro hgate
    by_cases hsn : sn = some "$all"
    · have hta := hgate hsn
      subst hsn
      cases hm : h.SupportsFeature Feature.persistentSubscriptionManagement <;>
        simp [getPersistentSubscriptionInfoInternal, hta, hm, dispatchKind, managementKind]
    · cases hm : h.SupportsFeature Feature.persistentSubscriptionManagement <;>
        cases sn <;>
          simp_all [getPersistentSubscriptionInfoInternal, dispatchKind, managementKind]
  · cases hm : h.SupportsFeature Feature.persistentSubscriptionManagement <;>
      simp [RestartPersistentSubscriptionSubsystem, hm, dispatchKind, managementKind]

/-- Witness for c7_amended at a concrete handle, stream and group. -/
theorem c7_amended_witness :
    dispatchKind (replayParkedMessages noFeaturesHandle "books" "group" {}) =
      managementKind noFeaturesHandle
    ∧ dispatchKind (listPersistentSubscriptionsInternal noFeaturesHandle none {}) =
      managementKind noFeaturesHandle
    ∧ dispatchKind (getPersistentSubscriptionInfoInternal noFeaturesHandle none "group" {}) =
      managementKind noFeaturesHandle
    ∧ dispatchKind (RestartPersistentSubscriptionSubsystem noFeaturesHandle {}) =
      managementKind noFeaturesHandle := by
  obtain ⟨h1, h2, h3, h4⟩ :=
    c7_amended noFeaturesHandle "books" "group" none {} {} {} {}
  exact ⟨h1 (fun hx => absurd hx (by decide)),
    h2 (fun hx => absurd hx (by decide)),
    h3 (fun hx => absurd hx (by decide)), h4⟩

/- ===================== C9 ===================== -/

/-- Claim C9: CreatePersistentSubscription, CreatePersistentSubscriptionToAll
and UpdatePersistentSubscription each substitute the default subscription
settings when the options carry no settings, so their dereference succeeds
and the dispatched call uses the default settings; whereas
UpdatePersistentSubscriptionToAll dereferences the settings pointer without
a nil check, so on the input with nil settings (and a handle passing the
all-stream gate) the panic branch of the dereference is reached. -/
theorem c9_settings_guard (h : connectionHandle) (s g : String)
    (o : PersistentStreamSubscriptionOptions) (oa : PersistentAllSubscriptionOptions)
    (hta : h.SupportsFeature Feature.persistentSubscriptionToAll = true)
    (ho : o.Settings = none) (hoa : oa.Settings = none) :
    CreatePersistentSubscription h s g o =
      Except.ok (PSAction.createStreamGrpc s g o.StartFrom SubscriptionSettingsDefault)
    ∧ CreatePersistentSubscriptionToAll h g oa =
      Except.ok (PSAction.createAllGrpc g oa.StartFrom SubscriptionSettingsDefault
        (allFilterOptions oa))
    ∧ UpdatePersistentSubscription h s g o =
      Except.ok (PSAction.updateStreamGrpc s g o.StartFrom SubscriptionSettingsDefault)
    ∧ UpdatePersistentSubscriptionToAll h g oa = Except.error ClientError.nilPointerPanic := by
  refine ⟨?_, ?_, ?_, ?_⟩
  · simp [CreatePersistentSubscription, ho, deref]
  · simp [CreatePersistentSubscriptionToAll, hta, hoa, deref]
  · simp [UpdatePersistentSubscription, ho, deref]
  · simp [UpdatePersistentSubscriptionToAll, hta, hoa, deref]

/-- Witness for c9_settings_guard at a concrete handle and empty options. -/
theorem c9_settings_guard_witness :
    CreatePersistentSubscription allFeaturesHandle "books" "group" {} =
      Except.ok (PSAction.createStreamGrpc "books" "group" StreamPosition.streamEnd
        SubscriptionSettingsDefault)
    ∧ CreatePersistentSubscriptionToAll allFeaturesHandle "group" {} =
      Except.ok (PSAction.createAllGrpc "group" AllPosition.allEnd
        SubscriptionSettingsDefault none)
    ∧ UpdatePersistentSubscription allFeaturesHandle "books" "group" {} =
      Except.ok (PSAction.updateStreamGrpc "books" "group" StreamPosition.streamEnd
        SubscriptionSettingsDefault)
    ∧ UpdatePersistentSubscriptionToAll allFeaturesHandle "group" {} =
      Except.error ClientError.nilPointerPanic :=
  c9_settings_guard allFeaturesHandle "books" "group" {} {} rfl rfl rfl

/- ===================== Append send trace (C5) ===================== -/

/-- Content type of an event, from the spec: json or octet-stream. -/
inductive ContentType where
  | json
  | binary
deriving DecidableEq

/-- Wire tag of a content type. -/
def contentTypeTag : ContentType → String
  | ContentType.json => "application/json"
  | ContentType.binary => "application/octet-stream"

/-- Event to be appended, from the spec data model: 128-bit id (as Nat),
type, content type, and the data and metadata payload bytes. -/
structure EventData where
  eventID : Nat
  eventType : String
  contentType : ContentType
  data : List Nat
  metadata : List Nat
deriving DecidableEq

/-- Expected revision sum type from the spec: Any, NoStream, StreamExists
or an exact u64 revision. -/
inductive ExpectedRevision where
  | any
  | noStream
  | streamExists
  | exact (r : Nat)
deriving DecidableEq

/-- Header frame content of an append call: the stream id and the expected
revision. -/
structure AppendHeaderContent where
  streamID : String
  expectedRevision : ExpectedRevision
deriving DecidableEq

/-- Modelled from the spec: toAppendHeader (source not under src) builds
the single header frame carrying the stream id and the expected revision. -/
def toAppendHeader (streamID : String) (expectedRevision : ExpectedRevision) :
    AppendHeaderContent :=
  { streamID := streamID, expectedRevision := expectedRevision }

/-- Proposed-message frame content: id, system metadata (type and content
type), custom metadata, and data, as listed by the spec for the append
request frames. -/
structure ProposedMessage where
  id : Nat
  metadata : List (String × String)
  customMetadata : List Nat
  data : List Nat
deriving DecidableEq

/-- Modelled from the spec: toProposedMessage (source not under src) builds
one proposed-message frame from an event, copying the id, the payload and
the metadata and recording the type and content type as system metadata. -/
def toProposedMessage (e : EventData) : ProposedMessage :=
  { id := e.eventID,
    metadata := [("type", e.eventType), ("content-type", contentTypeTag e.contentType)],
    customMetadata := e.metadata,
    data := e.data }

/-- Frame sent by the client on the append bidirectional stream. -/
inductive AppendFrame where
  | header (content : AppendHeaderContent)
  | proposedMessage (message : ProposedMessage)
deriving DecidableEq

/-- Trace of an append call on the bidirectional stream: the frames sent in
order, and whether the call reached the half-close performed by
CloseAndRecv; when a Send call fails the Go code returns before
half-closing, so halfClosed is false in that case. -/
structure AppendTrace where
  sent : List AppendFrame
  halfClosed : Bool
deriving DecidableEq

/-- Send loop over the events, translated from src/esdb/client.go lines
72-83; sendOk i tells whether the i-th Send call on the stream succeeds,
and a failed Send aborts the loop with no further frames. -/
def sendProposed (sendOk : Nat → Bool) : Nat → List EventData → List AppendFrame × Bool
  | _, [] => ([], true)
  | i, e :: rest =>
    if sendOk i then
      let r := sendProposed sendOk (i + 1) rest
      (AppendFrame.proposedMessage (toProposedMessage e) :: r.1, r.2)
    else
      ([], false)

/-- Frames Client.AppendToStream sends on the bidirectional call,
translated from src/esdb/client.go lines 65-85: first the single header
frame built by toAppendHeader, then one proposed-message frame per event in
the order of the argument list, then the half-close performed by
CloseAndRecv before the response is read. -/
def appendToStreamSendTrace (streamID : String) (expectedRevision : ExpectedRevision)
    (events : List EventData) (sendOk : Nat → Bool) : AppendTrace :=
  if sendOk 0 then
    let r := sendProposed sendOk 1 events
    { sent := AppendFrame.header (toAppendHeader streamID expectedRevision) :: r.1,
      halfClosed := r.2 }
  else
    { sent := [], halfClosed := false }

/-- Under a failure-free stream, the send loop emits exactly one
proposed-message frame per event, in order. -/
theorem sendProposed_all_ok (sendOk : Nat → Bool) (hok : ∀ i, sendOk i = true) :
    ∀ (events : List EventData) (i : Nat),
      sendProposed sendOk i events =
        (events.map (fun e => AppendFrame.proposedMessage (toProposedMessage e)), true) := by
  intro events
  induction events with
  | nil => intro i; rfl
  | cons e rest ih =>
    intro i
    simp [sendProposed, hok i, ih (i + 1)]

/-- Claim C5: for every call to AppendToStream with stream id s, expected
revision r and a list of events, when no Send fails the client sends
exactly one header frame carrying s and r, followed by exactly one
proposed-message frame per event in the order of the input list, and then
half-closes the stream before reading the response. -/
theorem c5_append_frames (s : String) (r : ExpectedRevision) (events : List EventData)
    (sendOk : Nat → Bool) (hok : ∀ i, sendOk i = true) :
    appendToStreamSendTrace s r events sendOk =
      { sent := AppendFrame.header (toAppendHeader s r) ::
          events.map (fun e => AppendFrame.proposedMessage (toProposedMessage e)),
        halfClosed := true } := by
  simp [appendToStreamSendTrace, hok 0, sendProposed_all_ok sendOk hok events 1]

/-- Witness for c5_append_frames at a concrete two-event append. -/
theorem c5_append_frames_witness :
    appendToStreamSendTrace "books" (ExpectedRevision.exact 4)
      [{ eventID := 1, eventType := "t1", contentType := ContentType.json,
         data := [1, 2], metadata := [] },
       { eventID := 2, eventType := "t2", contentType := ContentType.binary,
         data := [3], metadata := [7] }]
      (fun _ => true) =
      { sent := [AppendFrame.header (toAppendHeader "books" (ExpectedRevision.exact 4)),
          AppendFrame.proposedMessage (toProposedMessage
            { eventID := 1, eventType := "t1", contentType := ContentType.json,
              data := [1, 2], metadata := [] }),
          AppendFrame.proposedMessage (toProposedMessage
            { eventID := 2, eventType := "t2", contentType := ContentType.binary,
              data := [3], metadata := [7] })],
        halfClosed := true } :=
  c5_append_frames "books" (ExpectedRevision.exact 4) _ _ (fun _ => rfl)

/- ===================== Stream metadata model (C6, C10) ===================== -/

/-- JSON-representable value carried by a metadata property. -/
inductive JsonValue where
  | num (n : Nat)
  | str (s : String)
  | arr (elems : List JsonValue)
  | obj (fields : List (String × JsonValue))

/-- Lookup of a key in a property list, the access pattern of a Go map
realized on the association-list representation used here. -/
def alookup (k : String) : List (String × JsonValue) → Option JsonValue
  | [] => none
  | (k2, v) :: rest => if k2 = k then some v else alookup k rest

/-- Entry list contributed by an optional numeric metadata field. -/
def numEntry (k : String) : Option Nat → List (String × JsonValue)
  | none => []
  | some n => [(k, JsonValue.num n)]

/-- Entry list contributed by the optional acl field. -/
def aclEntry : Option JsonValue → List (String × JsonValue)
  | none => []
  | some v => [("$acl", v)]

/-- Recognized stream-metadata keys listed by the spec. -/
def isRecognizedKey (k : String) : Bool :=
  k == "$maxAge" || k == "$maxCount" || k == "$tb" || k == "$cacheControl" || k == "$acl"

/-- Predicate selecting the custom (unrecognized) properties. -/
def notRecognized (kv : String × JsonValue) : Bool :=
  !(isRecognizedKey kv.1)

/-- Modelled from the spec: the StreamMetadata record (source not under
src), with the recognized keys maxAge, maxCount, truncate-before,
cacheControl and acl plus arbitrary custom properties. Durations are u64
values represented as Nat. -/
structure StreamMetadata where
  maxAge : Option Nat
  maxCount : Option Nat
  truncateBefore : Option Nat
  cacheControl : Option Nat
  acl : Option JsonValue
  customProperties : List (String × JsonValue)

/-- Modelled from the spec: StreamMetadata.toMap (source not under src)
renders the metadata as the property map persisted in the metadata event,
one entry per present recognized key plus the custom properties. -/
def StreamMetadata.toMap (m : StreamMetadata) : List (String × JsonValue) :=
  numEntry "$maxAge" m.maxAge ++
  (numEntry "$maxCount" m.maxCount ++
  (numEntry "$tb" m.truncateBefore ++
  (numEntry "$cacheControl" m.cacheControl ++
  (aclEntry m.acl ++
  m.customProperties))))

/-- Reading of a numeric recognized key from a property map: absent keys
parse to none, numeric values to their number, and any other value is a
parse failure (the outer none). -/
def getNumKey (props : List (String × JsonValue)) (k : String) : Option (Option Nat) :=
  match alookup k props with
  | none => some none
  | some (JsonValue.num n) => some (some n)
  | some _ => none

/-- Modelled from the spec: streamMetadataFromMap (source not under src)
parses a property map back into StreamMetadata; the recognized numeric keys
must carry numbers, the acl is taken as found, and every unrecognized entry
becomes a custom property. -/
def streamMetadataFromMap (props : List (String × JsonValue)) : Option StreamMetadata :=
  match getNumKey props "$maxAge", getNumKey props "$maxCount",
      getNumKey props "$tb", getNumKey props "$cacheControl" with
  | some maxAge, some maxCount, some tb, some cacheControl =>
    some { maxAge := maxAge, maxCount := maxCount, truncateBefore := tb,
           cacheControl := cacheControl, acl := alookup "$acl" props,
           customProperties := props.filter notRecognized }
  | _, _, _, _ => none

/-- Key order on property entries used by the JSON codec model. -/
def keyLe (a b : String × JsonValue) : Prop := a.1 ≤ b.1

instance : DecidableRel keyLe :=
  fun a b => inferInstanceAs (Decidable (a.1 ≤ b.1))

/-- Modelled from the spec: the composition of json.Marshal and
json.Unmarshal on the property map. A Go map carries no entry order and
json.Marshal writes its keys in sorted order, so the codec composition is
modelled as sorting the association list by key; values round-trip
unchanged. -/
def sortKeys (props : List (String × JsonValue)) : List (String × JsonValue) :=
  List.insertionSort keyLe props

/-- Key sorting permutes the property list. -/
theorem sortKeys_perm (props : List (String × JsonValue)) : (sortKeys props).Perm props :=
  List.perm_insertionSort keyLe props

/-- Metadata event as appended to the metadata stream; the payload holds
the serialized property map with the codec normalization applied. -/
structure MetaEvent where
  eventType : String
  contentType : ContentType
  payload : List (String × JsonValue)

/-- Client.SetStreamMetadata, translated from src/esdb/client.go lines
151-181: the metadata is rendered to its property map, serialized as JSON
and appended to the stream named by prefixing the stream id with two dollar
signs, as a json event of type metadata. The first component is the target
stream name, the second the appended event. -/
def SetStreamMetadata (streamID : String) (m : StreamMetadata) : String × MetaEvent :=
  ("$$" ++ streamID,
   { eventType := "$metadata", contentType := ContentType.json,
     payload := sortKeys m.toMap })

/-- Outcome of the single Recv performed by GetStreamMetadata: end of
stream, a received metadata event, or a receive error. -/
inductive RecvOutcome where
  | eof
  | event (e : MetaEvent)
  | recvFailed

/-- Zero value of StreamMetadata, the Go literal with every field unset. -/
def emptyStreamMetadata : StreamMetadata :=
  { maxAge := none, maxCount := none, truncateBefore := none, cacheControl := none,
    acl := none, customProperties := [] }

/-- Client.GetStreamMetadata, translated from src/esdb/client.go lines
184-223: a single event is read from the metadata stream; an immediate end
of stream yields the empty metadata value with a nil error, a receive error
is surfaced, and otherwise the payload is deserialized and parsed, parse
failures mapping to the parsing error code. -/
def GetStreamMetadata (recv : RecvOutcome) : Except ClientError StreamMetadata :=
  match recv with
  | RecvOutcome.eof => Except.ok emptyStreamMetadata
  | RecvOutcome.recvFailed => Except.error ClientError.unexpectedRecvError
  | RecvOutcome.event e =>
    match streamMetadataFromMap e.payload with
    | none => Except.error ClientError.parseError
    | some meta => Except.ok meta

/-- Well-formedness of a metadata value as representation of a Go value:
the rendered property map has no duplicate keys (its recognized part is
duplicate-free by construction and the custom part mirrors a Go map), and
no custom property uses a recognized key. -/
abbrev metadataWellFormed (m : StreamMetadata) : Prop :=
  ((m.toMap.map Prod.fst).Nodup) ∧ ∀ kv ∈ m.customProperties, isRecognizedKey kv.1 = false

/-- Lookup through an entry block for its own key. -/
theorem alookup_numEntry_self (k : String) (o : Option Nat) (rest : List (String × JsonValue)) :
    alookup k (numEntry k o ++ rest) =
      match o with
      | some n => some (JsonValue.num n)
      | none => alookup k rest := by
  cases o <;> simp [numEntry, alookup]

/-- Lookup through an entry block for a different key. -/
theorem alookup_numEntry_skip {k2 k : String} (hne : k2 ≠ k) (o : Option Nat)
    (rest : List (String × JsonValue)) :
    alookup k (numEntry k2 o ++ rest) = alookup k rest := by
  cases o <;> simp [numEntry, alookup, hne]

/-- Lookup through the acl entry block for the acl key. -/
theorem alookup_aclEntry_self (o : Option JsonValue) (rest : List (String × JsonValue)) :
    alookup "$acl" (aclEntry o ++ rest) =
      match o with
      | some v => some v
      | none => alookup "$acl" rest := by
  cases o <;> simp [aclEntry, alookup]

/-- Lookup through the acl entry block for a different key. -/
theorem alookup_aclEntry_skip {k : String} (hne : "$acl" ≠ k) (o : Option JsonValue)
    (rest : List (String × JsonValue)) :
    alookup k (aclEntry o ++ rest) = alookup k rest := by
  cases o <;> simp [aclEntry, alookup, hne]

/-- A recognized key is not found among purely custom entries. -/
theorem alookup_unrecognized (l : List (String × JsonValue))
    (hc : ∀ kv ∈ l, isRecognizedKey kv.1 = false) (k : String)
    (hk : isRecognizedKey k = true) : alookup k l = none := by
  induction l with
  | nil => rfl
  | cons hd tl ih =>
    obtain ⟨k2, v⟩ := hd
    have hhd := hc (k2, v) (List.mem_cons_self _ _)
    have hne : k2 ≠ k := by
      intro hEq
      rw [hEq, hk] at hhd
      cases hhd
    simp only [alookup, if_neg hne]
    exact ih fun kv hm => hc kv (List.mem_cons_of_mem _ hm)

/-- Value of the maxAge key in the rendered property map. -/
theorem lookup_toMap_maxAge (m : StreamMetadata)
    (hc : ∀ kv ∈ m.customProperties, isRecognizedKey kv.1 = false) :
    alookup "$maxAge" m.toMap = m.maxAge.map JsonValue.num := by
  unfold StreamMetadata.toMap
  rw [alookup_numEntry_self]
  cases m.maxAge with
  | some a => rfl
  | none =>
    rw [alookup_numEntry_skip (by decide), alookup_numEntry_skip (by decide),
      alookup_numEntry_skip (by decide), alookup_aclEntry_skip (by decide)]
    exact alookup_unrecognized m.customProperties hc "$maxAge" (by decide)

/-- Value of the maxCount key in the rendered property map. -/
theorem lookup_toMap_maxCount (m : StreamMetadata)
    (hc : ∀ kv ∈ m.customProperties, isRecognizedKey kv.1 = false) :
    alookup "$maxCount" m.toMap = m.maxCount.map JsonValue.num := by
  unfold StreamMetadata.toMap
  rw [alookup_numEntry_skip (by decide), alookup_numEntry_self]
  cases m.maxCount with
  | some a => rfl
  | none =>
    rw [alookup_numEntry_skip (by decide), alookup_numEntry_skip (by decide),
      alookup_aclEntry_skip (by decide)]
    exact alookup_unrecognized m.customProperties hc "$maxCount" (by decide)

/-- Value of the truncate-before key in the rendered property map. -/
theorem lookup_toMap_tb (m : StreamMetadata)
    (hc : ∀ kv ∈ m.customProperties, isRecognizedKey kv.1 = false) :
    alookup "$tb" m.toMap = m.truncateBefore.map JsonValue.num := by
  unfold StreamMetadata.toMap
  rw [alookup_numEntry_skip (by decide), alookup_numEntry_skip (by decide),
    alookup_numEntry_self]
  cases m.truncateBefore with
  | some a => rfl
  | none =>
    rw [alookup_numEntry_skip (by decide), alookup_aclEntry_skip (by decide)]
    exact alookup_unrecognized m.customProperties hc "$tb" (by decide)

/-- Value of the cacheControl key in the rendered property map. -/
theorem lookup_toMap_cacheControl (m : StreamMetadata)
    (hc : ∀ kv ∈ m.customProperties, isRecognizedKey kv.1 = false) :
    alookup "$cacheControl" m.toMap = m.cacheControl.map JsonValue.num := by
  unfold StreamMetadata.toMap
  rw [alookup_numEntry_skip (by decide), alookup_numEntry_skip (by decide),
    alookup_numEntry_skip (by decide), alookup_numEntry_self]
  cases m.cacheControl with
  | some a => rfl
  | none =>
    rw [alookup_aclEntry_skip (by decide)]
    exact alookup_unrecognized m.customProperties hc "$cacheControl" (by decide)

/-- Value of the acl key in the rendered property map. -/
theorem lookup_toMap_acl (m : StreamMetadata)
    (hc : ∀ kv ∈ m.customProperties, isRecognizedKey kv.1 = false) :
    alookup "$acl" m.toMap = m.acl := by
  unfold StreamMetadata.toMap
  rw [alookup_numEntry_skip (by decide), alookup_numEntry_skip (by decide),
    alookup_numEntry_skip (by decide), alookup_numEntry_skip (by decide),
    alookup_aclEntry_self]
  cases m.acl with
  | some a => rfl
  | none => exact alookup_unrecognized m.customProperties hc "$acl" (by decide)

/-- Filtering the rendered property map to the unrecognized keys recovers
exactly the custom properties. -/
theorem filter_toMap (m : StreamMetadata)
    (hc : ∀ kv ∈ m.customProperties, isRecognizedKey kv.1 = false) :
    m.toMap.filter notRecognized = m.customProperties := by
  unfold StreamMetadata.toMap
  have h1 : ∀ o : Option Nat, (numEntry "$maxAge" o).filter notRecognized = [] := by
    intro o; cases o <;> rfl
  have h2 : ∀ o : Option Nat, (numEntry "$maxCount" o).filter notRecognized = [] := by
    intro o; cases o <;> rfl
  have h3 : ∀ o : Option Nat, (numEntry "$tb" o).filter notRecognized = [] := by
    intro o; cases o <;> rfl
  have h4 : ∀ o : Option Nat, (numEntry "$cacheControl" o).filter notRecognized = [] := by
    intro o; cases o <;> rfl
  have h5 : ∀ o : Option JsonValue, (aclEntry o).filter notRecognized = [] := by
    intro o; cases o <;> rfl
  rw [List.filter_append, List.filter_append, List.filter_append, List.filter_append,
    List.filter_append, h1, h2, h3, h4, h5]
  simp only [List.nil_append]
  exact List.filter_eq_self.mpr fun kv hm => by
    simp [notRecognized, hc kv hm]

/-- A key lookup is invariant under permutation of a duplicate-free
property map. -/
theorem alookup_perm (k : String) {l1 l2 : List (String × JsonValue)} (hp : l1.Perm l2) :
    (l1.map Prod.fst).Nodup → alookup k l1 = alookup k l2 := by
  induction hp with
  | nil => intro _; rfl
  | cons x hp ih =>
    intro hnd
    obtain ⟨kx, vx⟩ := x
    rw [List.map_cons, List.nodup_cons] at hnd
    by_cases hk : kx = k
    · subst hk; simp [alookup]
    · simp [alookup, hk, ih hnd.2]
  | swap x y l =>
    intro hnd
    obtain ⟨kx, vx⟩ := x
    obtain ⟨ky, vy⟩ := y
    rw [List.map_cons, List.map_cons, List.nodup_cons] at hnd
    by_cases hky : ky = k
    · subst hky
      have hkx : kx ≠ ky := by
        intro hEq
        exact hnd.1 (by rw [← hEq]; exact List.mem_cons_self _ _)
      simp [alookup, hkx]
    · by_cases hkx : kx = k
      · subst hkx; simp [alookup, hky]
      · simp [alookup, hky, hkx]
  | trans hp1 hp2 ih1 ih2 =>
    intro hnd
    rw [ih1 hnd]
    exact ih2 (((hp1.map Prod.fst).nodup_iff).mp hnd)

/-- Reading of a numeric key whose lookup carries a number or nothing. -/
theorem getNumKey_of_map_num {props : List (String × JsonValue)} {k : String} {o : Option Nat}
    (h : alookup k props = o.map JsonValue.num) : getNumKey props k = some o := by
  cases o <;> simp [getNumKey, h]

/-- Parsing the codec-normalized rendering of a well-formed metadata value
recovers every recognized field exactly and the custom properties up to
the key reordering applied by the codec. -/
theorem fromMap_sorted (m : StreamMetadata)
    (hnd : (m.toMap.map Prod.fst).Nodup)
    (hc : ∀ kv ∈ m.customProperties, isRecognizedKey kv.1 = false) :
    streamMetadataFromMap (sortKeys m.toMap) =
      some { maxAge := m.maxAge, maxCount := m.maxCount, truncateBefore := m.truncateBefore,
             cacheControl := m.cacheControl, acl := m.acl,
             customProperties := (sortKeys m.toMap).filter notRecognized } := by
  have hperm : (sortKeys m.toMap).Perm m.toMap := sortKeys_perm m.toMap
  have hndS : ((sortKeys m.toMap).map Prod.fst).Nodup :=
    ((hperm.map Prod.fst).nodup_iff).mpr hnd
  have hl : ∀ k, alookup k (sortKeys m.toMap) = alookup k m.toMap :=
    fun k => alookup_perm k hperm hndS
  have g1 : getNumKey (sortKeys m.toMap) "$maxAge" = some m.maxAge :=
    getNumKey_of_map_num ((hl "$maxAge").trans (lookup_toMap_maxAge m hc))
  have g2 : getNumKey (sortKeys m.toMap) "$maxCount" = some m.maxCount :=
    getNumKey_of_map_num ((hl "$maxCount").trans (lookup_toMap_maxCount m hc))
  have g3 : getNumKey (sortKeys m.toMap) "$tb" = some m.truncateBefore :=
    getNumKey_of_map_num ((hl "$tb").trans (lookup_toMap_tb m hc))
  have g4 : getNumKey (sortKeys m.toMap) "$cacheControl" = some m.cacheControl :=
    getNumKey_of_map_num ((hl "$cacheControl").trans (lookup_toMap_cacheControl m hc))
  have ga : alookup "$acl" (sortKeys m.toMap) = m.acl :=
    (hl "$acl").trans (lookup_toMap_acl m hc)
  unfold streamMetadataFromMap
  rw [g1, g2, g3, g4, ga]

/- ===================== C6 ===================== -/

/-- Claim C6: for every well-formed stream metadata value M, setting the
metadata appends a json event of type metadata to the stream whose name is
the stream id prefixed with two dollar signs, and reading the metadata back
from that event returns a value equal to M on every recognized field with
the custom (unknown) properties preserved up to the key reordering applied
by the JSON map codec. -/
theorem c6_set_get_roundtrip (streamID : String) (m : StreamMetadata)
    (hwf : metadataWellFormed m) :
    (SetStreamMetadata streamID m).1 = "$$" ++ streamID
    ∧ (SetStreamMetadata streamID m).2.eventType = "$metadata"
    ∧ (SetStreamMetadata streamID m).2.contentType = ContentType.json
    ∧ ∃ m2 : StreamMetadata,
        GetStreamMetadata (RecvOutcome.event (SetStreamMetadata streamID m).2) = Except.ok m2
        ∧ m2.maxAge = m.maxAge ∧ m2.maxCount = m.maxCount
        ∧ m2.truncateBefore = m.truncateBefore ∧ m2.cacheControl = m.cacheControl
        ∧ m2.acl = m.acl
        ∧ m2.customProperties.Perm m.customProperties := by
  obtain ⟨hnd, hc⟩ := hwf
  refine ⟨rfl, rfl, rfl,
    ⟨{ maxAge := m.maxAge, maxCount := m.maxCount, truncateBefore := m.truncateBefore,
       cacheControl := m.cacheControl, acl := m.acl,
       customProperties := (sortKeys m.toMap).filter notRecognized },
     ?_, rfl, rfl, rfl, rfl, rfl, ?_⟩⟩
  · show GetStreamMetadata (RecvOutcome.event
        { eventType := "$metadata", contentType := ContentType.json,
          payload := sortKeys m.toMap }) = _
    rw [GetStreamMetadata, fromMap_sorted m hnd hc]
  · have hpf := List.Perm.filter notRecognized (sortKeys_perm m.toMap)
    rw [filter_toMap m hc] at hpf
    exact hpf

/-- Witness for c6_set_get_roundtrip at a concrete metadata value with one
custom property. -/
theorem c6_set_get_roundtrip_witness :
    (SetStreamMetadata "books"
        { maxAge := some 3, maxCount := none, truncateBefore := some 1, cacheControl := none,
          acl := none, customProperties := [("zkey", JsonValue.str "zval")] }).1 =
      "$$" ++ "books"
    ∧ (SetStreamMetadata "books"
        { maxAge := some 3, maxCount := none, truncateBefore := some 1, cacheControl := none,
          acl := none, customProperties := [("zkey", JsonValue.str "zval")] }).2.eventType =
      "$metadata"
    ∧ (SetStreamMetadata "books"
        { maxAge := some 3, maxCount := none, truncateBefore := some 1, cacheControl := none,
          acl := none, customProperties := [("zkey", JsonValue.str "zval")] }).2.contentType =
      ContentType.json
    ∧ ∃ m2 : StreamMetadata,
        GetStreamMetadata (RecvOutcome.event (SetStreamMetadata "books"
          { maxAge := some 3, maxCount := none, truncateBefore := some 1, cacheControl := none,
            acl := none, customProperties := [("zkey", JsonValue.str "zval")] }).2) =
          Except.ok m2
        ∧ m2.maxAge = some 3 ∧ m2.maxCount = none
        ∧ m2.truncateBefore = some 1 ∧ m2.cacheControl = none
        ∧ m2.acl = none
        ∧ m2.customProperties.Perm [("zkey", JsonValue.str "zval")] :=
  c6_set_get_roundtrip "books"
    { maxAge := some 3, maxCount := none, truncateBefore := some 1, cacheControl := none,
      acl := none, customProperties := [("zkey", JsonValue.str "zval")] }
    (by constructor <;> decide)

/- ===================== C10 ===================== -/

/-- Claim C10: when the metadata read yields end of stream immediately (no
metadata event received), GetStreamMetadata returns the empty StreamMetadata
value together with a nil error rather than a stream-not-found or any other
error. -/
theorem c10_eof_empty_metadata :
    GetStreamMetadata RecvOutcome.eof = Except.ok emptyStreamMetadata := rfl

end ESDB
